import Mathlib

set_option linter.unusedVariables false

/-!
Verification development for the content-automation pipeline.

The definitions below are shallow embeddings of the repository code:
the control-plane server (run supervision, scheduling, stop handling),
the per-stage row state machines of the pipeline scripts (image
generation, logo embedding, text embedding, Facebook posting), and the
date-time conversion helpers of the posting stage.  External
collaborators (Google Sheets, Google Drive, OpenAI, the Facebook Graph
API, the filesystem) appear as oracle parameters carrying only their
observable outcome; JavaScript NaN is modeled as Option.none and a
thrown exception as Except.error.
-/

/-! ## JavaScript string primitives used by the scripts -/

/-- Maximal leading decimal-digit prefix of a character list. -/
def jsDigits (l : List Char) : List Char := l.takeWhile Char.isDigit

/-- Numeric value of a list of decimal digits, most significant first. -/
def digitsVal (l : List Char) : Nat :=
  l.foldl (fun a c => a * 10 + (c.toNat - 48)) 0

/-- Characters of a string with surrounding whitespace removed; models the
JavaScript trim method. -/
def jsTrimList (l : List Char) : List Char :=
  ((l.dropWhile Char.isWhitespace).reverse.dropWhile Char.isWhitespace).reverse

/-- Models the JavaScript trim method on strings. -/
def jsTrim (s : String) : String := (jsTrimList s.toList).asString

/-- Models the JavaScript toUpperCase method for the ASCII inputs of the
scripts. -/
def jsToUpper (s : String) : String := (s.toList.map Char.toUpper).asString

/-- Models the JavaScript toLowerCase method for the ASCII inputs of the
scripts. -/
def jsToLower (s : String) : String := (s.toList.map Char.toLower).asString

/-- Models the JavaScript endsWith method. -/
def jsEndsWith (s t : String) : Bool :=
  s.toList.reverse.take t.toList.length == t.toList.reverse

/-- Models str.slice(0, -n): drop the last n characters. -/
def jsDropRight (s : String) (n : Nat) : String :=
  (s.toList.take (s.toList.length - n)).asString

/-- Accumulator-based splitting of a character list on a separator character,
leftmost field first. -/
def jsSplitAux (sep : Char) : List Char → List Char → List (List Char)
  | [], acc => [acc.reverse]
  | c :: rest, acc =>
      if c == sep then acc.reverse :: jsSplitAux sep rest []
      else jsSplitAux sep rest (c :: acc)

/-- Models the JavaScript split method for the single-character separators
used by the scripts (slash and colon). -/
def jsSplitOn (s : String) (sep : Char) : List String :=
  (jsSplitAux sep s.toList []).map List.asString

/-- Models the JavaScript parseInt(x, 10) calls of the scripts: surrounding
whitespace is skipped, an optional sign is read, then a maximal digit prefix;
when no digit is present the result is NaN, modeled as none. -/
def jsParseInt (x : String) : Option Int :=
  match jsTrimList x.toList with
  | '-' :: rest =>
      let d := jsDigits rest
      if d.isEmpty then none else some (-(digitsVal d : Int))
  | '+' :: rest =>
      let d := jsDigits rest
      if d.isEmpty then none else some ((digitsVal d : Int))
  | t =>
      let d := jsDigits t
      if d.isEmpty then none else some ((digitsVal d : Int))

/-- JavaScript truthiness of a possibly-undefined string cell: undefined and
the empty string are falsy, every other string is truthy. -/
def jsTruthy (o : Option String) : Bool :=
  match o with
  | none => false
  | some s => s != ""

/-- Models str.slice(0, n) on a JavaScript string for n greater or equal 0. -/
def jsSlice (s : String) (n : Nat) : String := (s.toList.take n).asString

/-! ## Column-letter helpers

toColLetter is the 0-based helper of the posting script; columnNumberToLetter
is the 1-based helper shared by the image-generation and logo-embedding
scripts.  Both build the letters least-significant first by prepending, which
is the recursive append below. -/

/-- Translation of the columnNumberToLetter loop of the image-generation and
logo-embedding scripts: while num is positive, compute mod as (num - 1) mod 26,
prepend the letter with code 65 + mod, and continue with (num - mod) / 26. -/
def columnNumberToLetter (num : Nat) : String :=
  if h : num = 0 then ""
  else
    columnNumberToLetter ((num - (num - 1) % 26) / 26) ++
      String.mk [Char.ofNat (65 + (num - 1) % 26)]
termination_by num
decreasing_by
  calc (num - (num - 1) % 26) / 26 ≤ num / 26 :=
        Nat.div_le_div_right (Nat.sub_le _ _)
    _ < num := Nat.div_lt_self (Nat.pos_of_ne_zero h) (by norm_num)

/-- Translation of the while-loop body of toColLetter in the posting script:
while n is positive, prepend the letter with code 65 + (n - 1) mod 26 and
continue with (n - 1) / 26. -/
def toColLetterLoop (n : Nat) : String :=
  if h : n = 0 then ""
  else toColLetterLoop ((n - 1) / 26) ++ String.mk [Char.ofNat (65 + (n - 1) % 26)]
termination_by n
decreasing_by
  calc (n - 1) / 26 ≤ n - 1 := Nat.div_le_self _ _
    _ < n := Nat.sub_lt (Nat.pos_of_ne_zero h) (by norm_num)

/-- Translation of toColLetter of the posting script: it runs the loop on
colIndex + 1. -/
def toColLetter (colIndex : Nat) : String := toColLetterLoop (colIndex + 1)

theorem columnNumberToLetter_zero : columnNumberToLetter 0 = "" := by
  rw [columnNumberToLetter]
  simp

theorem columnNumberToLetter_pos (num : Nat) (h : num ≠ 0) :
    columnNumberToLetter num =
      columnNumberToLetter ((num - (num - 1) % 26) / 26) ++
        String.mk [Char.ofNat (65 + (num - 1) % 26)] := by
  rw [columnNumberToLetter]
  simp [h]

theorem toColLetterLoop_zero : toColLetterLoop 0 = "" := by
  rw [toColLetterLoop]
  simp

theorem toColLetterLoop_pos (n : Nat) (h : n ≠ 0) :
    toColLetterLoop n =
      toColLetterLoop ((n - 1) / 26) ++ String.mk [Char.ofNat (65 + (n - 1) % 26)] := by
  rw [toColLetterLoop]
  simp [h]

/-- The two loops compute the same next state: subtracting the remainder
before dividing equals dividing the predecessor. -/
theorem col_next_eq (num : Nat) (h : num ≠ 0) :
    (num - (num - 1) % 26) / 26 = (num - 1) / 26 := by
  omega

/-- The two column-letter loops agree on every input. -/
theorem toColLetterLoop_eq_columnNumberToLetter (n : Nat) :
    toColLetterLoop n = columnNumberToLetter n := by
  induction n using Nat.strong_induction_on with
  | _ n ih =>
    by_cases h : n = 0
    · subst h
      rw [toColLetterLoop_zero, columnNumberToLetter_zero]
    · rw [toColLetterLoop_pos n h, columnNumberToLetter_pos n h, col_next_eq n h,
        ih ((n - 1) / 26)]
      calc (n - 1) / 26 ≤ n - 1 := Nat.div_le_self _ _
        _ < n := Nat.sub_lt (Nat.pos_of_ne_zero h) (by norm_num)

/-- C10: the posting script's toColLetter on a 0-based index i equals the
other scripts' columnNumberToLetter on the 1-based number i + 1, and both
produce the standard spreadsheet letters: index 0 maps to A, 25 to Z and 26
to AA. -/
theorem claim_C10_theorem :
    (∀ i : Nat, toColLetter i = columnNumberToLetter (i + 1)) ∧
    toColLetter 0 = "A" ∧ toColLetter 25 = "Z" ∧ toColLetter 26 = "AA" ∧
    columnNumberToLetter 1 = "A" ∧ columnNumberToLetter 26 = "Z" ∧
    columnNumberToLetter 27 = "AA" := by
  have h1 : toColLetterLoop 1 = "A" := by
    rw [toColLetterLoop_pos 1 (by norm_num), toColLetterLoop_zero]
    rfl
  have h26 : toColLetterLoop 26 = "Z" := by
    rw [toColLetterLoop_pos 26 (by norm_num)]
    norm_num
    rw [toColLetterLoop_zero]
    rfl
  have h27 : toColLetterLoop 27 = "AA" := by
    rw [toColLetterLoop_pos 27 (by norm_num)]
    norm_num
    rw [h1]
    rfl
  refine ⟨fun i => toColLetterLoop_eq_columnNumberToLetter (i + 1), ?_, ?_, ?_, ?_, ?_, ?_⟩
  · exact h1
  · exact h26
  · exact h27
  · rw [← toColLetterLoop_eq_columnNumberToLetter]; exact h1
  · rw [← toColLetterLoop_eq_columnNumberToLetter]; exact h26
  · rw [← toColLetterLoop_eq_columnNumberToLetter]; exact h27

deriving instance DecidableEq for Except

/-! ## Temporal validation and conversion of the posting script -/

/-- Days from 1970-01-01 to the given proleptic-Gregorian civil date, with
month in 1..12 after the caller's normalization; the standard era-based
computation using floor division, which is what the ECMAScript MakeDay
operation computes for in-range month values. -/
def daysFromCivil (y m d : Int) : Int :=
  let y2 := if m ≤ 2 then y - 1 else y
  let era := Int.fdiv y2 400
  let yoe := y2 - era * 400
  let mp := Int.emod (m + 9) 12
  let doy := Int.fdiv (153 * mp + 2) 5 + d - 1
  let doe := yoe * 365 + Int.fdiv yoe 4 - Int.fdiv yoe 100 + doy
  era * 146097 + doe - 719468

/-- Models ECMAScript Date.UTC(y, m0, d, h, mi, s) for integral arguments
whose 0-based month m0 lies in 0..11 and whose year is at least 100, the only
values the conversion function produces under the theorems below: the day
number times the milliseconds per day plus the clock time in milliseconds.
Out-of-range month normalization and the 1900-based two-digit-year rule of
Date.UTC are never reached by the script because it maps two-digit years to
2000 + y before the call. -/
def dateUTCms (y m0 d h mi s : Int) : Int :=
  daysFromCivil y (m0 + 1) d * 86400000 + h * 3600000 + mi * 60000 + s * 1000

/-- Date.UTC with NaN propagation: any NaN argument makes the result NaN. -/
def jsDateUTC (y m0 d h mi s : Option Int) : Option Int :=
  match y, m0, d, h, mi, s with
  | some y, some m0, some d, some h, some mi, some s =>
      some (dateUTCms y m0 d h mi s)
  | _, _, _, _, _, _ => none

/-- Composed field values read as a UTC instant, in Unix seconds; this is the
naively-UTC-interpreted composed timestamp of the specification, with month
1-based. -/
def composedUTCSeconds (y m d h mi s : Int) : Int :=
  daysFromCivil y m d * 86400 + h * 3600 + mi * 60 + s

/-- Result of parseFlexibleTime: hour and minute may be NaN (none) when their
fields do not parse; the second component is forced to 0 by the or-default. -/
structure JsTime where
  h : Option Int
  m : Option Int
  s : Int
deriving DecidableEq, Repr

/-- Translation of parseFlexibleTime of the posting script: uppercase and trim
the input, strip a trailing AM or PM marker, split the rest on colons and
parse each field with parseInt, fail when fewer than two fields are present,
then apply the 12-hour adjustment: PM adds 12 to hours below 12, and 12 AM
becomes hour 0. -/
def parseFlexibleTime (str : String) : Except String JsTime :=
  let s := jsToUpper (jsTrim str)
  let ampm : Option String :=
    if jsEndsWith s "AM" then some "AM"
    else if jsEndsWith s "PM" then some "PM"
    else none
  let base := match ampm with
    | some _ => jsTrim (jsDropRight s 2)
    | none => s
  let parts := (jsSplitOn base ':').map (fun x => jsParseInt (jsTrim x))
  if parts.length < 2 then Except.error ("Invalid time format: " ++ str)
  else
    let h0 : Option Int := (parts.get? 0).getD none
    let m0 : Option Int := (parts.get? 1).getD none
    let sec : Int := (((parts.get? 2).getD none).getD 0 : Int)
    let h1 : Option Int := match ampm, h0 with
      | some "PM", some h => if h < 12 then some (h + 12) else some h
      | _, _ => h0
    let h2 : Option Int := match ampm, h1 with
      | some "AM", some h => if h == 12 then some 0 else some h
      | _, _ => h1
    Except.ok ⟨h2, m0, sec⟩

/-- Translation of convertISTToUTCUnix of the posting script: split the date
on slashes and parse day, month and two-digit year (years below 100 map to
2000 + y), reject a month above 12, parse the time, compose with Date.UTC,
subtract the fixed IST offset of 330 minutes in milliseconds and floor-divide
by 1000. -/
def convertISTToUTCUnix (dateStr timeStr : String) : Except String (Option Int) :=
  let parts := (jsSplitOn dateStr '/').map (fun x => jsParseInt (jsTrim x))
  let d : Option Int := (parts.get? 0).getD none
  let m : Option Int := (parts.get? 1).getD none
  let yRaw : Option Int := (parts.get? 2).getD none
  let y := yRaw.map (fun v => if v < 100 then 2000 + v else v)
  if (match m with | some v => decide (v > 12) | none => false) then
    Except.error "Invalid DD/MM date: month > 12"
  else
    match parseFlexibleTime timeStr with
    | Except.error e => Except.error e
    | Except.ok t =>
        let istUTCms := jsDateUTC y (m.map (fun v => v - 1)) d t.h t.m (some t.s)
        Except.ok (istUTCms.map (fun v => Int.fdiv (v - 330 * 60 * 1000) 1000))

/-- C4: the conversion rejects every date whose month component exceeds 12, in
particular the string 31/13/25; for valid day/month/two-digit-year dates and
parseable times it returns the composed fields interpreted as UTC minus
exactly 330 minutes; and 05/06/25 at 09:00 AM yields 1749094200, the Unix
time of 2025-06-05T03:30:00Z. -/
theorem claim_C4_theorem :
    convertISTToUTCUnix "31/13/25" "09:00 AM" =
      Except.error "Invalid DD/MM date: month > 12" ∧
    convertISTToUTCUnix "05/06/25" "09:00 AM" = Except.ok (some 1749094200) ∧
    (∀ (ds ts a b c : String) (mv : Int),
      jsSplitOn ds '/' = [a, b, c] → jsParseInt (jsTrim b) = some mv → mv > 12 →
      convertISTToUTCUnix ds ts = Except.error "Invalid DD/MM date: month > 12") ∧
    (∀ (ds ts a b c : String) (dv mv yv hv miv sv : Int),
      jsSplitOn ds '/' = [a, b, c] →
      jsParseInt (jsTrim a) = some dv →
      jsParseInt (jsTrim b) = some mv →
      jsParseInt (jsTrim c) = some yv →
      mv ≤ 12 → yv < 100 →
      parseFlexibleTime ts = Except.ok ⟨some hv, some miv, sv⟩ →
      convertISTToUTCUnix ds ts =
        Except.ok (some (composedUTCSeconds (2000 + yv) mv dv hv miv sv - 330 * 60))) := by
  refine ⟨by decide, by decide, ?_, ?_⟩
  · intro ds ts a b c mv hsplit hb hm
    unfold convertISTToUTCUnix
    rw [hsplit]
    simp only [List.map_cons, List.map_nil, hb, List.get?, Option.getD_some]
    rw [if_pos]
    simp only [decide_eq_true_eq]
    exact hm
  · intro ds ts a b c dv mv yv hv miv sv hsplit ha hb hc hm hy ht
    unfold convertISTToUTCUnix
    rw [hsplit]
    simp only [List.map_cons, List.map_nil, ha, hb, hc, List.get?, Option.getD_some]
    rw [if_neg, ht]
    · simp only [Option.map_some', if_pos hy, jsDateUTC, dateUTCms, composedUTCSeconds,
        Option.map_some]
      have hmv : mv - 1 + 1 = mv := by ring
      rw [hmv]
      congr 2
      have hfac :
          daysFromCivil (2000 + yv) mv dv * 86400000 + hv * 3600000 + miv * 60000 +
              sv * 1000 - 330 * 60 * 1000 =
            1000 * (daysFromCivil (2000 + yv) mv dv * 86400 + hv * 3600 + miv * 60 + sv -
              330 * 60) := by
        ring
      rw [hfac, Int.mul_fdiv_cancel_left _ (by norm_num)]
    · simp only [decide_eq_true_eq]
      omega

/-- Witness for the universally quantified parts of the C4 theorem: both are
applied at the concrete inputs of the specification examples, with every
hypothesis discharged by evaluation. -/
theorem claim_C4_witness :
    convertISTToUTCUnix "31/13/25" "09:00 AM" =
      Except.error "Invalid DD/MM date: month > 12" ∧
    convertISTToUTCUnix "05/06/25" "09:00 AM" =
      Except.ok (some (composedUTCSeconds (2000 + 25) 6 5 9 0 0 - 330 * 60)) :=
  ⟨claim_C4_theorem.2.2.1 "31/13/25" "09:00 AM" "31" "13" "25" 13 (by decide) (by decide)
      (by norm_num),
    claim_C4_theorem.2.2.2 "05/06/25" "09:00 AM" "05" "06" "25" 5 6 25 9 0 0 (by decide)
      (by decide) (by decide) (by decide) (by norm_num) (by norm_num) (by decide)⟩

/-! ## Posting stage (5.post2fbgen3.js): header-driven row state machine

The stage reads the whole sheet, maps trimmed header names to indices, and
processes each data row through a chain of skip and failure checks before
calling the Facebook API.  Network effects are abstracted by an oracle
holding the observable outcome of the Drive download (content type or error)
and of the Facebook post call (success or error message). -/

/-- Environment of the posting script: page credentials from the process
environment, the dry-run flag, and the current Unix time. -/
structure PostEnv where
  pageId : String
  pageToken : String
  dryRun : Bool
  nowUnix : Int
deriving Repr

/-- Oracle for the two external calls of a posting-row action: the Drive
download yields a content type or fails, the Facebook post yields a response
or fails with the message the script extracts from the error. -/
structure PostOracle where
  download : Except String String
  post : Except String String
deriving Repr

/-- Translation of the get helper of the posting script: look the name up in
the header index built from trimmed headers and return the trimmed cell, or
the empty string when the column or the cell is absent.  The script builds
the index with forEach assignment, which keeps the last occurrence of a
duplicated header name; the layout has pairwise distinct names, under which
the first-occurrence search below coincides. -/
def postGet (headers row : List String) (name : String) : String :=
  match List.findIdx? (fun h => jsTrim h == name) headers with
  | none => ""
  | some idx =>
      match row.get? idx with
      | none => ""
      | some v => jsTrim v

/-- Translation of the media priority selection of the posting script: the
first truthy value among NewImageLink, ImageWithTextEmbedded,
ImageWithLogoEmbedded and GenImage, in that order. -/
def postMediaSelect (n i l g : String) : Option String :=
  List.find? (fun x => x != "") [n, i, l, g]

/-- Translation of the shouldSchedule decision of the posting script: the
publish timestamp is more than 600 seconds after now; a NaN timestamp
compares false. -/
def postShouldSchedule (publishUnix : Option Int) (nowUnix : Int) : Bool :=
  match publishUnix with
  | some p => decide (p - nowUnix > 600)
  | none => false

/-- Translation of the per-row body of the posting script main loop, lines
239 to 395: the list of updateSheet requests (column name and value) the row
produces, in order.  Skipped rows produce no requests. -/
def postProcessRow (env : PostEnv) (oc : PostOracle) (headers row : List String) :
    List (String × String) :=
  let get := postGet headers row
  let postFlag := jsToLower (get "Post(yes/no)")
  let postStatus := jsToLower (get "PostStatus")
  let allDone := jsToLower (get "AllProcessComplete")
  if postStatus == "posted" || postStatus == "scheduled" || allDone == "yes" then []
  else if postFlag != "yes" then
    [("PostStatus", "Post turned off"), ("AllProcessComplete", "yes")]
  else if env.pageId == "" || env.pageToken == "" then
    [("PostStatus", "no env vars set, exiting"), ("AllProcessComplete", "yes")]
  else
    let caption := get "Caption"
    let hashtags := get "Hashtags"
    let postDate := get "PostDate(DD/MM/YY)"
    let postTime := get "PostTime(HH:MM AM/PM)"
    if caption == "" then
      [("PostStatus", "failed: caption blank"), ("AllProcessComplete", "yes")]
    else if hashtags == "" then
      [("PostStatus", "failed: hashtags blank"), ("AllProcessComplete", "yes")]
    else if postDate == "" || postTime == "" then
      [("PostStatus", "failed: missing date/time"), ("AllProcessComplete", "yes")]
    else
      let dateParts := jsSplitOn postDate '/'
      if dateParts.length != 3 then
        [("PostStatus", "failed: invalid date format"), ("AllProcessComplete", "yes")]
      else
        let mm := jsParseInt ((dateParts.get? 1).getD "")
        if (match mm with | some v => decide (v > 12) | none => false) then
          [("PostStatus", "failed: invalid date format"), ("AllProcessComplete", "yes")]
        else
          match postMediaSelect (get "NewImageLink") (get "ImageWithTextEmbedded")
              (get "ImageWithLogoEmbedded") (get "GenImage") with
          | none =>
              [("PostStatus", "failed: no media link"), ("AllProcessComplete", "yes")]
          | some _ =>
              match oc.download with
              | Except.error _ =>
                  [("PostStatus", "failed: download error"),
                    ("AllProcessComplete", "yes")]
              | Except.ok _ =>
                  match convertISTToUTCUnix postDate postTime with
                  | Except.error _ =>
                      [("PostStatus", "failed: invalid date/time"),
                        ("AllProcessComplete", "yes")]
                  | Except.ok publishUnix =>
                      let shouldSchedule := postShouldSchedule publishUnix env.nowUnix
                      if env.dryRun then
                        [("PostStatus",
                          if shouldSchedule then "dry-run: scheduled"
                          else "dry-run: posted")]
                      else
                        match oc.post with
                        | Except.ok _ =>
                            [("PostStatus",
                                if shouldSchedule then "scheduled" else "posted"),
                              ("AllProcessComplete", "yes")]
                        | Except.error fbMsg =>
                            [("PostStatus", "failed: " ++ jsSlice fbMsg 200),
                              ("AllProcessComplete", "yes")]

/-- Translation of the guard inside updateSheet of the posting script: a
requested write whose column name is not in the header index returns without
any sheet call, so only requests naming present columns become writes. -/
def postApplyWrites (headers : List String) (ws : List (String × String)) :
    List (String × String) :=
  ws.filter (fun w => (List.findIdx? (fun h => jsTrim h == w.1) headers).isSome)

/-- The posting stage over all data rows: for each row (numbered from 2) the
requested updates that actually reach the sheet.  The stage has no
column-validation step, so it never aborts on a missing column. -/
def postStageRun (env : PostEnv) (oc : PostOracle) (headers : List String)
    (rows : List (List String)) : List (Nat × String × String) :=
  (rows.enum.map (fun p =>
    (postApplyWrites headers (postProcessRow env oc headers p.2)).map
      (fun w => (p.1 + 2, w)))).flatten

/-! ## Concrete posting-stage fixtures used by the theorems -/

/-- Header row with all columns the posting stage reads, in layout order. -/
def postHeaders : List String :=
  ["Post(yes/no)", "PostStatus", "AllProcessComplete", "Caption", "Hashtags",
    "PostDate(DD/MM/YY)", "PostTime(HH:MM AM/PM)", "NewImageLink",
    "ImageWithTextEmbedded", "ImageWithLogoEmbedded", "GenImage"]

/-- A row ready to post: enabled, not yet processed, valid date and time, and
a generated image as the only media candidate. -/
def postRowReady : List String :=
  ["yes", "", "", "cap", "tags", "05/06/25", "09:00 AM", "", "", "", "g"]

/-- The same row with every media candidate blank. -/
def postRowNoMedia : List String :=
  ["yes", "", "", "cap", "tags", "05/06/25", "09:00 AM", "", "", "", ""]

/-- Posting environment with credentials present, dry-run off, and the given
current time. -/
def postEnvAt (n : Int) : PostEnv := ⟨"page", "token", false, n⟩

/-- Oracle where the download and the Facebook call both succeed. -/
def postOracleOK : PostOracle := ⟨Except.ok "image/png", Except.ok "id"⟩

/-- C5: media selection returns the first non-empty candidate in the declared
order NewImageLink, ImageWithTextEmbedded, ImageWithLogoEmbedded, GenImage;
on candidates empty, b, c it returns b; and a row whose candidates are all
empty is failed as a required-field failure with the no-media status and the
all-complete flag, not processed. -/
theorem claim_C5_theorem :
    (∀ a b c d : String,
      postMediaSelect a b c d =
        if a ≠ "" then some a
        else if b ≠ "" then some b
        else if c ≠ "" then some c
        else if d ≠ "" then some d
        else none) ∧
    postMediaSelect "" "b" "c" "" = some "b" ∧
    postProcessRow (postEnvAt 1749094200) postOracleOK postHeaders postRowNoMedia =
      [("PostStatus", "failed: no media link"), ("AllProcessComplete", "yes")] := by
  refine ⟨?_, by decide, by decide⟩
  intro a b c d
  by_cases ha : a = "" <;> by_cases hb2 : b = "" <;> by_cases hc2 : c = "" <;>
    by_cases hd2 : d = "" <;> simp [postMediaSelect, ha, hb2, hc2, hd2]

/-- C9: through the posting row machine, a publish time 300 seconds ahead of
now posts immediately, one 900 seconds ahead schedules, and in general the
row for 2025-06-05T03:30:00Z is scheduled exactly when that instant is more
than 600 seconds after now. -/
theorem claim_C9_theorem :
    (∀ p n : Int, postShouldSchedule (some p) n = true ↔ p - n > 600) ∧
    postProcessRow (postEnvAt (1749094200 - 300)) postOracleOK postHeaders postRowReady =
      [("PostStatus", "posted"), ("AllProcessComplete", "yes")] ∧
    postProcessRow (postEnvAt (1749094200 - 900)) postOracleOK postHeaders postRowReady =
      [("PostStatus", "scheduled"), ("AllProcessComplete", "yes")] ∧
    (∀ n : Int,
      postProcessRow (postEnvAt n) postOracleOK postHeaders postRowReady =
        [("PostStatus",
            if postShouldSchedule (some 1749094200) n then "scheduled" else "posted"),
          ("AllProcessComplete", "yes")]) := by
  refine ⟨?_, by decide, by decide, fun n => rfl⟩
  intro p n
  simp [postShouldSchedule]

/-! ## Image-generation stage (2.genimage.js)

Resolves its three columns with indexOf on the raw header row, exits before
any row when one is missing, and otherwise processes rows sequentially; the
generate-download-upload action is abstracted as an oracle yielding the Drive
link or the thrown error message. -/

/-- Resolved 0-based column indices of the image-generation stage. -/
structure GenCols where
  imagePrompt : Nat
  genImage : Nat
  genComplete : Nat
deriving DecidableEq, Repr

/-- Oracle for the image-generation action of one row: the DALL-E call,
the local download and the Drive upload, collapsed to the produced link or
the error message of whichever step threw. -/
structure GenOracle where
  gen : Except String String
deriving DecidableEq, Repr

/-- Translation of the loop body of the image-generation script, lines 193 to
245: the updateCell requests (column index and value) one row produces.  No
ImagePrompt or an already Complete GenComplete cell skips the row with no
writes; success writes the link and the Complete marker; failure writes the
error message to the GenComplete column. -/
def genimageProcessRow (cols : GenCols) (oc : GenOracle) (row : List String) :
    List (Nat × String) :=
  let imagePrompt := row.get? cols.imagePrompt
  let genComplete := row.get? cols.genComplete
  if !(jsTruthy imagePrompt) then []
  else if genComplete == some "Complete" then []
  else
    match oc.gen with
    | Except.ok driveLink =>
        [(cols.genImage, driveLink), (cols.genComplete, "Complete")]
    | Except.error msg => [(cols.genComplete, "Error: " ++ msg)]

/-- Translation of the run function of the image-generation script: resolve
the three required columns with indexOf over the header row; when any is
absent the process exits with code 1 before reading any data row (modeled as
the error outcome); otherwise emit each row's requests tagged with its sheet
row number, starting at 2. -/
def genimageRun (headers : List String) (rows : List (List String)) (oc : GenOracle) :
    Except Unit (List (Nat × Nat × String)) :=
  let imagePromptCol := List.findIdx? (fun h => h == "ImagePrompt") headers
  let genImageCol := List.findIdx? (fun h => h == "GenImage") headers
  let genCompleteCol := List.findIdx? (fun h => h == "GenComplete") headers
  match imagePromptCol, genImageCol, genCompleteCol with
  | some ip, some gi, some gc =>
      Except.ok ((rows.enum.map (fun p =>
        (genimageProcessRow ⟨ip, gi, gc⟩ oc p.2).map (fun w => (p.1 + 2, w)))).flatten)
  | _, _, _ => Except.error ()

/-! ## Logo-embedding stage (3.embedlogo.js), per-row machine

Column resolution uses normalized header names in the script; the row
machine below is parameterized by the resolved indices.  The download,
validation, resize, composite and upload steps are one oracle. -/

/-- Resolved 0-based column indices of the logo-embedding stage. -/
structure LogoCols where
  embed : Nat
  logoUrl : Nat
  logoPos : Nat
  complete : Nat
  output : Nat
  genImage : Nat
deriving DecidableEq, Repr

/-- Oracle for the logo-embedding action of one row: the produced Drive link
or the message of the thrown error. -/
structure LogoOracle where
  embed : Except String String
deriving DecidableEq, Repr

/-- Translation of the loop body of the logo-embedding script, lines 228 to
332: the updateCell requests one row produces.  An already complete row is
skipped with no writes; a row not opted in is marked Complete; a missing base
image or logo fails the row with a fixed message; otherwise the action result
decides between the link plus Complete and the error message. -/
def embedlogoProcessRow (cols : LogoCols) (oc : LogoOracle) (row : List String) :
    List (Nat × String) :=
  let embedF := jsToLower ((row.get? cols.embed).getD "")
  let logoUrl := row.get? cols.logoUrl
  let status := jsToLower ((row.get? cols.complete).getD "")
  let baseImageUrl := row.get? cols.genImage
  if status == "complete" then []
  else if embedF != "yes" then [(cols.complete, "Complete")]
  else if !(jsTruthy baseImageUrl) then
    [(cols.complete, "Error: Base image (GenImage) missing")]
  else if !(jsTruthy logoUrl) then [(cols.complete, "Error: LogoUrl missing")]
  else
    match oc.embed with
    | Except.ok driveLink => [(cols.output, driveLink), (cols.complete, "Complete")]
    | Except.error msg => [(cols.complete, "Error: " ++ msg)]

/-! ## Text-embedding stage (4.embedtxt.js), per-row machine

The script pads each short row to the header width, then either skips the
row (no sheet call) or rewrites the whole padded row once through updateRow;
the returned value below is that single whole-row write, none when the row
is skipped. -/

/-- Resolved 0-based column indices of the text-embedding stage. -/
structure TxtCols where
  embedText : Nat
  textContent : Nat
  complete : Nat
  output : Nat
  genImage : Nat
  logoEmbedded : Nat
deriving DecidableEq, Repr

/-- Oracle for the text-embedding action of one row: the uploaded share link
or the message of the thrown error. -/
structure TxtOracle where
  embed : Except String String
deriving DecidableEq, Repr

/-- Right-pads a row with empty cells to the header width, as the
text-embedding script does before processing. -/
def padRow (numCols : Nat) (row : List String) : List String :=
  if row.length < numCols then row ++ List.replicate (numCols - row.length) ""
  else row

/-- Translation of the loop body of the text-embedding script, lines 742 to
862: pad the row; an already Complete row is skipped without any updateRow
call; otherwise the row is rewritten with the completion cell set to
Complete, a blank-content error, a no-image error, or the action outcome. -/
def embedtxtProcessRow (numCols : Nat) (cols : TxtCols) (oc : TxtOracle)
    (row0 : List String) : Option (List String) :=
  let row := padRow numCols row0
  if row.get? cols.complete == some "Complete" then none
  else
    let flag := jsToLower (jsTrim ((row.get? cols.embedText).getD ""))
    if flag != "yes" then some (row.set cols.complete "Complete")
    else
      let textContent := jsTrim ((row.get? cols.textContent).getD "")
      if textContent == "" then
        some (row.set cols.complete "Error: TextContent is blank")
      else
        let imageUrl0 := jsTrim ((row.get? cols.logoEmbedded).getD "")
        let imageUrl :=
          if imageUrl0 == "" then jsTrim ((row.get? cols.genImage).getD "")
          else imageUrl0
        if imageUrl == "" then some (row.set cols.complete "Error: No image URL")
        else
          match oc.embed with
          | Except.ok link =>
              some ((row.set cols.output link).set cols.complete "Complete")
          | Except.error msg =>
              some (row.set cols.complete ("Error: " ++ msg))

/-! ## Claims about completion skipping, column validation and failure status -/

/-- C3 counterexample: the image-generation stage ignores the global
all-complete flag.  With headers including AllProcessComplete and a row whose
AllProcessComplete cell is yes but whose GenComplete cell is empty, the stage
does not skip the row: reprocessing issues two writes to the external store. -/
theorem claim_C3_counterexample :
    (["ImagePrompt", "GenImage", "GenComplete", "AllProcessComplete"].get? 3 =
        some "AllProcessComplete" ∧
      (["p", "", "", "yes"] : List String).get? 3 = some "yes") ∧
    genimageRun ["ImagePrompt", "GenImage", "GenComplete", "AllProcessComplete"]
        [["p", "", "", "yes"]] ⟨Except.ok "link"⟩ =
      Except.ok [(2, 1, "link"), (2, 2, "Complete")] ∧
    ([(2, 1, "link"), (2, 2, "Complete")] : List (Nat × Nat × String)) ≠ [] := by
  refine ⟨⟨by decide, by decide⟩, by decide, by decide⟩

/-- C3 amended: a row whose own stage completion flag is set is skipped with
no writes in the posting, image-generation, logo-embedding and text-embedding
stages, and the posting stage additionally skips on the global all-complete
flag; the other stages never consult the global flag (see the
counterexample). -/
theorem claim_C3_theorem :
    (∀ (env : PostEnv) (oc : PostOracle) (headers row : List String),
      (jsToLower (postGet headers row "PostStatus") = "posted" ∨
        jsToLower (postGet headers row "PostStatus") = "scheduled" ∨
        jsToLower (postGet headers row "AllProcessComplete") = "yes") →
      postProcessRow env oc headers row = []) ∧
    (∀ (cols : GenCols) (oc : GenOracle) (row : List String),
      row.get? cols.genComplete = some "Complete" →
      genimageProcessRow cols oc row = []) ∧
    (∀ (cols : LogoCols) (oc : LogoOracle) (row : List String),
      jsToLower ((row.get? cols.complete).getD "") = "complete" →
      embedlogoProcessRow cols oc row = []) ∧
    (∀ (numCols : Nat) (cols : TxtCols) (oc : TxtOracle) (row : List String),
      (padRow numCols row).get? cols.complete = some "Complete" →
      embedtxtProcessRow numCols cols oc row = none) := by
  refine ⟨?_, ?_, ?_, ?_⟩
  · intro env oc headers row h
    rcases h with h | h | h <;> simp [postProcessRow, h]
  · intro cols oc row h
    simp only [List.get?_eq_getElem?] at h
    simp [genimageProcessRow, h]
  · intro cols oc row h
    simp only [List.get?_eq_getElem?] at h
    simp [embedlogoProcessRow, h]
  · intro numCols cols oc row h
    simp only [List.get?_eq_getElem?] at h
    simp [embedtxtProcessRow, h]

/-- Witness for the C3 amended theorem: each conjunct applied at a concrete
already-completed row, with the completion hypothesis discharged by
evaluation. -/
theorem claim_C3_witness :
    postProcessRow (postEnvAt 0) postOracleOK postHeaders
        ["yes", "posted", "", "cap", "tags", "05/06/25", "09:00 AM", "", "", "", "g"] =
      [] ∧
    genimageProcessRow ⟨0, 1, 2⟩ ⟨Except.ok "link"⟩ ["p", "", "Complete"] = [] ∧
    embedlogoProcessRow ⟨0, 1, 2, 3, 4, 5⟩ ⟨Except.ok "link"⟩
        ["yes", "l", "top", "Complete", "", "g"] = [] ∧
    embedtxtProcessRow 6 ⟨0, 1, 2, 3, 4, 5⟩ ⟨Except.ok "link"⟩
        ["yes", "t", "Complete"] = none :=
  ⟨claim_C3_theorem.1 (postEnvAt 0) postOracleOK postHeaders
      ["yes", "posted", "", "cap", "tags", "05/06/25", "09:00 AM", "", "", "", "g"]
      (Or.inl (by decide)),
    claim_C3_theorem.2.1 ⟨0, 1, 2⟩ ⟨Except.ok "link"⟩ ["p", "", "Complete"] (by decide),
    claim_C3_theorem.2.2.1 ⟨0, 1, 2, 3, 4, 5⟩ ⟨Except.ok "link"⟩
      ["yes", "l", "top", "Complete", "", "g"] (by decide),
    claim_C3_theorem.2.2.2 6 ⟨0, 1, 2, 3, 4, 5⟩ ⟨Except.ok "link"⟩
      ["yes", "t", "Complete"] (by decide)⟩

/-- C6 counterexample: the posting stage does not abort when a column it
needs is missing.  With a header row lacking PostStatus, the stage still
processes the row: the PostStatus write is silently dropped by the updateSheet
guard and the AllProcessComplete write goes through. -/
theorem claim_C6_counterexample :
    List.findIdx? (fun h => jsTrim h == "PostStatus")
        ["Post(yes/no)", "AllProcessComplete"] = none ∧
    postStageRun (postEnvAt 0) postOracleOK ["Post(yes/no)", "AllProcessComplete"]
        [["no"]] = [(2, ("AllProcessComplete", "yes"))] := by
  refine ⟨by decide, by decide⟩

/-- C6 amended: the image-generation stage (like the logo-embedding and
text-embedding stages, which carry the same check) aborts before processing
any row when one of its required columns is absent from the freshly read
header schema; the posting stage performs no such validation and continues
row processing, silently skipping writes to absent columns (see the
counterexample). -/
theorem claim_C6_theorem :
    (∀ (headers : List String) (rows : List (List String)) (oc : GenOracle),
      List.findIdx? (fun h => h == "ImagePrompt") headers = none →
      genimageRun headers rows oc = Except.error ()) ∧
    (∀ (headers : List String) (rows : List (List String)) (oc : GenOracle),
      List.findIdx? (fun h => h == "GenImage") headers = none →
      genimageRun headers rows oc = Except.error ()) ∧
    (∀ (headers : List String) (rows : List (List String)) (oc : GenOracle),
      List.findIdx? (fun h => h == "GenComplete") headers = none →
      genimageRun headers rows oc = Except.error ()) := by
  refine ⟨?_, ?_, ?_⟩
  · intro headers rows oc h
    simp [genimageRun, h]
  · intro headers rows oc h
    rcases hip : List.findIdx? (fun x => x == "ImagePrompt") headers with _ | ip <;>
      simp [genimageRun, hip, h]
  · intro headers rows oc h
    rcases hip : List.findIdx? (fun x => x == "ImagePrompt") headers with _ | ip <;>
      rcases hgi : List.findIdx? (fun x => x == "GenImage") headers with _ | gi <;>
      simp [genimageRun, hip, hgi, h]

/-- Witness for the C6 amended theorem: all three conjuncts applied at a
one-column header row missing every required column. -/
theorem claim_C6_witness :
    genimageRun ["Other"] [] ⟨Except.ok "link"⟩ = Except.error () ∧
    genimageRun ["Other"] [["p"]] ⟨Except.ok "link"⟩ = Except.error () ∧
    genimageRun ["Other"] [] ⟨Except.error "e"⟩ = Except.error () :=
  ⟨claim_C6_theorem.1 ["Other"] [] ⟨Except.ok "link"⟩ (by decide),
    claim_C6_theorem.2.1 ["Other"] [["p"]] ⟨Except.ok "link"⟩ (by decide),
    claim_C6_theorem.2.2 ["Other"] [] ⟨Except.error "e"⟩ (by decide)⟩

/-- A string starting with the Error prefix is never the Complete marker, so
a failed row is not treated as completed on the next invocation. -/
theorem errPrefix_ne_complete (msg : String) : "Error: " ++ msg ≠ "Complete" := by
  intro h
  have hd := congrArg String.data h
  rw [String.data_append] at hd
  have hE : "Error: ".data = ['E', 'r', 'r', 'o', 'r', ':', ' '] := rfl
  have hC : "Complete".data = ['C', 'o', 'm', 'p', 'l', 'e', 't', 'e'] := rfl
  rw [hE, hC] at hd
  simp at hd

set_option maxRecDepth 8192 in
/-- C7 counterexample: in the image-generation stage, a row failure writes
the untruncated Error message (length 7 plus the message length, 307 here for
a 300-character message) to the GenComplete column only, without the
all-complete flag; and on the next invocation the row is processed again (the
stored status differs from Complete), so the failed row is retried. -/
theorem claim_C7_counterexample :
    genimageProcessRow ⟨0, 1, 2⟩ ⟨Except.error (String.mk (List.replicate 300 'a'))⟩
        ["p", "", ""] =
      [(2, "Error: " ++ String.mk (List.replicate 300 'a'))] ∧
    ("Error: " ++ String.mk (List.replicate 300 'a')).length = 307 ∧
    genimageProcessRow ⟨0, 1, 2⟩
        ⟨Except.error (String.mk (List.replicate 300 'a'))⟩
        ["p", "", "Error: " ++ String.mk (List.replicate 300 'a')] ≠ [] := by
  refine ⟨by decide, by decide, by decide⟩

/-- C7 amended: only the posting stage truncates the failure status (to 200
characters after the 8-character failed prefix, 208 in total) and writes the
all-complete flag, so that its failed rows are skipped on the next
invocation; the image-generation stage (representative of the generation and
embedding stages) writes the untruncated Error message to its stage column
without the all-complete flag, and such a row is processed again on the next
invocation. -/
theorem claim_C7_theorem :
    (∀ msg : String,
      postProcessRow (postEnvAt 1749094200) ⟨Except.ok "image/png", Except.error msg⟩
          postHeaders postRowReady =
        [("PostStatus", "failed: " ++ jsSlice msg 200), ("AllProcessComplete", "yes")]) ∧
    (∀ msg : String, ("failed: " ++ jsSlice msg 200).length ≤ 208) ∧
    postProcessRow (postEnvAt 1749094200) postOracleOK postHeaders
        ["yes", "failed: x", "yes", "cap", "tags", "05/06/25", "09:00 AM", "", "", "",
          "g"] = [] ∧
    (∀ msg : String,
      genimageProcessRow ⟨0, 1, 2⟩ ⟨Except.error msg⟩ ["p", "", ""] =
        [(2, "Error: " ++ msg)]) ∧
    (∀ msg : String, ("Error: " ++ msg).length = 7 + msg.length) ∧
    (∀ msg : String,
      genimageProcessRow ⟨0, 1, 2⟩ ⟨Except.ok "link"⟩ ["p", "", "Error: " ++ msg] =
        [(1, "link"), (2, "Complete")]) := by
  refine ⟨fun msg => rfl, ?_, by decide, fun msg => rfl, ?_, ?_⟩
  · intro msg
    have h8 : "failed: ".length = 8 := by decide
    have htake : (jsSlice msg 200).length ≤ 200 := by
      rw [jsSlice]
      rw [show (msg.toList.take 200).asString.length = (msg.toList.take 200).length
        from rfl]
      rw [List.length_take]
      exact min_le_left _ _
    rw [String.length_append, h8]
    omega
  · intro msg
    have h7 : "Error: ".length = 7 := by decide
    rw [String.length_append, h7]
  · intro msg
    simp [genimageProcessRow, jsTruthy, errPrefix_ne_complete msg]

/-! ## Control-plane server (server.js): supervision and scheduling

The server is a single-threaded event loop.  Each state transition below is
one atomic handler execution: an HTTP request handler run to its first
suspension, a child-process close event together with the microtask
continuation of the await that was waiting on it, or a timer callback.

State fields mirror the module-level variables: isScheduled and
scheduleTimeout (the variable is never reset to null by the script, only
overwritten by the next setTimeout), and activeChildProcess.  In addition the
model tracks the operating-system facts the variables try to follow: the set
of spawned child processes whose close event has not yet fired, the pending
(armed and not cancelled) timers with their interval, and the scheduled-loop
continuations awaiting a given child.  Fresh process and timer identifiers
come from counters. -/

/-- Global state of the server process. -/
structure ServerState where
  isScheduled : Bool
  scheduleTimeout : Option Nat
  activeChild : Option Nat
  running : List Nat
  waiters : List (Nat × Nat)
  pendingTimers : List (Nat × Nat)
  nextPid : Nat
  nextTimer : Nat
deriving DecidableEq, Repr

/-- Events the event loop can process: a manual run request (POST run with a
whitelisted script), a schedule request (interval 0 models the stop-schedule
body), a stop request, the close of a running child, and the firing of a
pending timer. -/
inductive SrvEv where
  | manualRun
  | scheduleReq (interval : Nat)
  | stopReq
  | childClose (pid : Nat)
  | timerFire (t : Nat)
deriving DecidableEq, Repr

/-- Translation of the synchronous part of runScript, lines 36 to 47: spawn
the child and track it in activeChildProcess, unconditionally overwriting the
slot. -/
def spawnRun (s : ServerState) : ServerState :=
  { s with
    activeChild := some s.nextPid
    running := s.nextPid :: s.running
    nextPid := s.nextPid + 1 }

/-- Translation of clearTimeout(scheduleTimeout): cancel the timer whose
identifier the variable holds, when any; the variable itself keeps its
value. -/
def cancelTracked (s : ServerState) : ServerState :=
  match s.scheduleTimeout with
  | some t => { s with pendingTimers := s.pendingTimers.filter (fun p => p.1 != t) }
  | none => s

/-- Translation of the synchronous prefix of runScheduledLoop, lines 208 to
213: return immediately when the schedule is inactive, otherwise spawn the
run via runScript and register the awaiting loop continuation with its
interval. -/
def loopStart (interval : Nat) (s : ServerState) : ServerState :=
  if s.isScheduled then
    { spawnRun s with waiters := (s.nextPid, interval) :: s.waiters }
  else s

/-- One atomic step of the server event loop.

manualRun is the POST run handler, line 187: it calls runScript with no
single-flight check.  scheduleReq is the POST schedule handler, lines 230 to
252: clear isScheduled, cancel the tracked timer, and for a truthy interval
set isScheduled and start the loop immediately.  stopReq is the POST stop
handler, lines 255 to 278: cancel the schedule and the tracked timer, signal
the active child and clear the slot (the child keeps running until its close
event).  childClose is the close handler of runScript, lines 70 to 78, which
clears activeChildProcess unconditionally, together with the resumed loop
continuation of lines 218 to 227, which arms the delay timer only when
isScheduled still holds.  timerFire is the setTimeout callback of line 224,
which re-enters runScheduledLoop. -/
def srvStep (s : ServerState) (e : SrvEv) : ServerState :=
  match e with
  | SrvEv.manualRun => spawnRun s
  | SrvEv.scheduleReq interval =>
      let s1 := cancelTracked { s with isScheduled := false }
      if interval == 0 then s1
      else loopStart interval { s1 with isScheduled := true }
  | SrvEv.stopReq =>
      let s1 := cancelTracked { s with isScheduled := false }
      { s1 with activeChild := none }
  | SrvEv.childClose pid =>
      if pid ∈ s.running then
        let s1 := { s with running := s.running.erase pid, activeChild := none }
        match s.waiters.find? (fun w => w.1 == pid) with
        | some wi =>
            let s2 := { s1 with waiters := s1.waiters.filter (fun w => w.1 != pid) }
            if s2.isScheduled then
              { s2 with
                pendingTimers := (s2.nextTimer, wi.2) :: s2.pendingTimers
                scheduleTimeout := some s2.nextTimer
                nextTimer := s2.nextTimer + 1 }
            else s2
        | none => s1
      else s
  | SrvEv.timerFire t =>
      match s.pendingTimers.find? (fun p => p.1 == t) with
      | some ti =>
          let s1 := { s with pendingTimers := s.pendingTimers.filter (fun p => p.1 != t) }
          loopStart ti.2 s1
      | none => s

/-- The server boot state: nothing scheduled, no timer, no child. -/
def srvInit : ServerState := ⟨false, none, none, [], [], [], 0, 0⟩

/-- State after processing a whole event trace from boot. -/
def srvRun (evs : List SrvEv) : ServerState := evs.foldl srvStep srvInit

/-- Guard of the serialized-caller discipline: an event that can dispatch a
run (a manual run when allowed at all, a schedule request, a timer callback)
is only processed while no spawned child is unresolved. -/
def dispatchGuard (allowManual : Bool) (s : ServerState) (e : SrvEv) : Bool :=
  match e with
  | SrvEv.manualRun => allowManual && s.running.isEmpty
  | SrvEv.scheduleReq _ => s.running.isEmpty
  | SrvEv.timerFire _ => s.running.isEmpty
  | _ => true

/-- A trace is serialized from a state when every event satisfies the
dispatch guard in the state where it is processed. -/
def serializedFrom (allowManual : Bool) (s : ServerState) : List SrvEv → Bool
  | [] => true
  | e :: rest =>
      dispatchGuard allowManual s e && serializedFrom allowManual (srvStep s e) rest

/-! ## Invariants of the server model -/

theorem cancelTracked_isScheduled (s : ServerState) :
    (cancelTracked s).isScheduled = s.isScheduled := by
  unfold cancelTracked
  cases s.scheduleTimeout <;> rfl

theorem cancelTracked_running (s : ServerState) :
    (cancelTracked s).running = s.running := by
  unfold cancelTracked
  cases s.scheduleTimeout <;> rfl

theorem cancelTracked_activeChild (s : ServerState) :
    (cancelTracked s).activeChild = s.activeChild := by
  unfold cancelTracked
  cases s.scheduleTimeout <;> rfl

theorem cancelTracked_waiters (s : ServerState) :
    (cancelTracked s).waiters = s.waiters := by
  unfold cancelTracked
  cases s.scheduleTimeout <;> rfl

theorem cancelTracked_nextPid (s : ServerState) :
    (cancelTracked s).nextPid = s.nextPid := by
  unfold cancelTracked
  cases s.scheduleTimeout <;> rfl

/-- Cancelling the tracked timer empties the pending set whenever every
pending timer is the tracked one. -/
theorem cancelTracked_pending_nil (s : ServerState)
    (h : ∀ ti ∈ s.pendingTimers, s.scheduleTimeout = some ti.1) :
    (cancelTracked s).pendingTimers = [] := by
  unfold cancelTracked
  cases hst : s.scheduleTimeout with
  | none =>
      simp only []
      refine List.eq_nil_iff_forall_not_mem.mpr (fun x hx => ?_)
      have := h x hx
      rw [hst] at this
      cases this
  | some t =>
      simp only []
      refine List.filter_eq_nil_iff.mpr (fun a ha => ?_)
      have := h a ha
      rw [hst] at this
      simp at this
      simp [this]

/-- A list of length at most one containing an element is that singleton. -/
theorem eq_singleton_of_len_le_one {α : Type} {a : α} {l : List α}
    (h1 : l.length ≤ 1) (h2 : a ∈ l) : l = [a] := by
  match l with
  | [] => cases h2
  | [b] =>
      simp at h2
      subst h2
      rfl
  | b :: c :: t => simp at h1

/-- Supervision invariant: at most one child is unresolved and the tracked
handle points at an unresolved child. -/
def SupInv (s : ServerState) : Prop :=
  s.running.length ≤ 1 ∧ ∀ p : Nat, s.activeChild = some p → p ∈ s.running

/-- One step preserves the supervision invariant under the serialized-caller
discipline (manual runs allowed). -/
theorem supInv_step (s : ServerState) (e : SrvEv)
    (hg : dispatchGuard true s e = true) (h : SupInv s) : SupInv (srvStep s e) := by
  obtain ⟨h1, h2⟩ := h
  cases e with
  | manualRun =>
      simp only [dispatchGuard, Bool.true_and, List.isEmpty_iff] at hg
      refine ⟨?_, fun p hp => ?_⟩
      · simp [srvStep, spawnRun, hg]
      · simp only [srvStep, spawnRun, Option.some.injEq] at hp
        simp [srvStep, spawnRun, ← hp]
  | scheduleReq interval =>
      simp only [dispatchGuard, List.isEmpty_iff] at hg
      by_cases hi : (interval == 0) = true
      · refine ⟨?_, fun p hp => ?_⟩
        · simp [srvStep, hi, cancelTracked_running, hg]
        · rw [srvStep] at hp
          simp only [hi, if_true] at hp
          rw [cancelTracked_activeChild] at hp
          simp only [srvStep, hi, if_true, cancelTracked_running]
          exact h2 p hp
      · refine ⟨?_, fun p hp => ?_⟩
        · simp [srvStep, hi, loopStart, spawnRun, cancelTracked_running,
            cancelTracked_isScheduled, hg]
        · simp only [srvStep, hi, if_false, loopStart, cancelTracked_isScheduled,
            cancelTracked_running, cancelTracked_activeChild, cancelTracked_nextPid,
            if_true, spawnRun, Option.some.injEq] at hp ⊢
          simp at hp
          simp [← hp, hg]
  | stopReq =>
      refine ⟨?_, fun p hp => ?_⟩
      · simp [srvStep, cancelTracked_running]
        exact h1
      · simp [srvStep] at hp
  | childClose pid =>
      by_cases hmem : pid ∈ s.running
      · rcases hf : s.waiters.find? (fun w => w.1 == pid) with _ | wi
        · refine ⟨?_, fun p hp => ?_⟩
          · simp only [srvStep, hmem, if_true, hf]
            calc (s.running.erase pid).length ≤ s.running.length :=
                  List.length_erase_le _ _
              _ ≤ 1 := h1
          · simp [srvStep, hmem, hf] at hp
        · by_cases hsch : s.isScheduled = true
          · refine ⟨?_, fun p hp => ?_⟩
            · simp only [srvStep, hmem, if_true, hf, hsch]
              calc (s.running.erase pid).length ≤ s.running.length :=
                    List.length_erase_le _ _
                _ ≤ 1 := h1
            · simp [srvStep, hmem, hf, hsch] at hp
          · refine ⟨?_, fun p hp => ?_⟩
            · simp only [srvStep, hmem, if_true, hf, hsch, if_false]
              calc (s.running.erase pid).length ≤ s.running.length :=
                    List.length_erase_le _ _
                _ ≤ 1 := h1
            · simp [srvStep, hmem, hf, hsch] at hp
      · refine ⟨?_, fun p hp => ?_⟩
        · simp only [srvStep, hmem, if_false]
          exact h1
        · simp only [srvStep, hmem, if_false] at hp ⊢
          exact h2 p hp
  | timerFire t =>
      simp only [dispatchGuard, List.isEmpty_iff] at hg
      rcases hf : s.pendingTimers.find? (fun p => p.1 == t) with _ | ti
      · refine ⟨?_, fun p hp => ?_⟩
        · simp only [srvStep, hf]
          exact h1
        · simp only [srvStep, hf] at hp ⊢
          exact h2 p hp
      · by_cases hsch : s.isScheduled = true
        · refine ⟨?_, fun p hp => ?_⟩
          · simp [srvStep, hf, loopStart, spawnRun, hsch, hg]
          · simp only [srvStep, hf, loopStart, spawnRun, hsch, if_true,
              Option.some.injEq] at hp ⊢
            simp [← hp, hg]
        · refine ⟨?_, fun p hp => ?_⟩
          · simp [srvStep, hf, loopStart, hsch, hg]
          · simp [srvStep, hf, loopStart, hsch] at hp
            rw [hg] at h2
            exact absurd (h2 p hp) (by simp)

/-- The supervision invariant holds along every serialized trace. -/
theorem serialized_supInv : ∀ (evs : List SrvEv) (s : ServerState), SupInv s →
    serializedFrom true s evs = true → SupInv (evs.foldl srvStep s)
  | [], s, h, _ => h
  | e :: rest, s, h, hser => by
      rw [serializedFrom, Bool.and_eq_true] at hser
      exact serialized_supInv rest (srvStep s e) (supInv_step s e hser.1 h) hser.2

/-- C1 counterexample: a manual run request while another run is unresolved
overwrites the handle slot (both children 0 and 1 are unresolved, the slot
tracks only child 1), and the close of child 0 then clears the slot although
child 1 is still running; in both reachable states the slot has lost track of
a still-running supervised process. -/
theorem claim_C1_counterexample :
    ((srvRun [SrvEv.manualRun, SrvEv.manualRun]).running = [1, 0] ∧
      (srvRun [SrvEv.manualRun, SrvEv.manualRun]).activeChild = some 1) ∧
    ((srvRun [SrvEv.manualRun, SrvEv.manualRun, SrvEv.childClose 0]).running = [1] ∧
      (srvRun [SrvEv.manualRun, SrvEv.manualRun,
        SrvEv.childClose 0]).activeChild = none) := by
  refine ⟨⟨by decide, by decide⟩, by decide, by decide⟩

/-- C1 amended: at most one Supervision Handle is tracked at any instant (the
slot is a single variable), and under the serialized-caller discipline, where
no run is dispatched while another is unresolved, the tracked handle is
exactly the unresolved child; without that discipline a manual run issued
during another run overwrites the slot and a close clears it while the other
child still runs (see the counterexample). -/
theorem claim_C1_theorem (evs : List SrvEv)
    (hser : serializedFrom true srvInit evs = true) :
    (srvRun evs).running.length ≤ 1 ∧
    (∀ p : Nat, (srvRun evs).activeChild = some p → (srvRun evs).running = [p]) := by
  have h := serialized_supInv evs srvInit ⟨by simp [srvInit], by simp [srvInit]⟩ hser
  refine ⟨h.1, fun p hp => ?_⟩
  exact eq_singleton_of_len_le_one h.1 (h.2 p hp)

/-- Witness for the C1 amended theorem: a serialized trace with two manual
runs separated by the close of the first. -/
theorem claim_C1_witness :
    (srvRun [SrvEv.manualRun, SrvEv.childClose 0, SrvEv.manualRun]).running.length ≤ 1 ∧
    (∀ p : Nat,
      (srvRun [SrvEv.manualRun, SrvEv.childClose 0, SrvEv.manualRun]).activeChild =
        some p →
      (srvRun [SrvEv.manualRun, SrvEv.childClose 0, SrvEv.manualRun]).running = [p]) :=
  claim_C1_theorem [SrvEv.manualRun, SrvEv.childClose 0, SrvEv.manualRun] (by decide)


theorem cancelTracked_nextTimer (s : ServerState) :
    (cancelTracked s).nextTimer = s.nextTimer := by
  unfold cancelTracked
  cases s.scheduleTimeout <;> rfl

/-- Loop invariant under the serialized discipline without manual runs: at
most one unresolved run or pending timer exists in total, every pending timer
is the one the scheduleTimeout variable tracks, every loop continuation waits
on an unresolved child, there are no more waiting continuations than
unresolved children, and a pending timer exists only while the schedule is
active. -/
def LoopInv (s : ServerState) : Prop :=
  s.running.length + s.pendingTimers.length ≤ 1 ∧
  (∀ ti ∈ s.pendingTimers, s.scheduleTimeout = some ti.1) ∧
  (∀ w ∈ s.waiters, w.1 ∈ s.running) ∧
  s.waiters.length ≤ s.running.length ∧
  (∀ ti ∈ s.pendingTimers, s.isScheduled = true)

/-- One step preserves the loop invariant under the serialized discipline
without manual runs. -/
theorem loopInv_step (s : ServerState) (e : SrvEv)
    (hg : dispatchGuard false s e = true) (h : LoopInv s) : LoopInv (srvStep s e) := by
  obtain ⟨h1, h2, h3, h4, h5⟩ := h
  cases e with
  | manualRun => simp [dispatchGuard] at hg
  | scheduleReq interval =>
      simp only [dispatchGuard, List.isEmpty_iff] at hg
      have hw : s.waiters = [] := by
        rw [hg] at h4
        exact List.length_eq_zero.mp (Nat.le_zero.mp h4)
      rcases hst : s.scheduleTimeout with _ | t0
      · have hpnil : s.pendingTimers = [] := by
          refine List.eq_nil_iff_forall_not_mem.mpr (fun x hx => ?_)
          have := h2 x hx
          rw [hst] at this
          cases this
        by_cases hi : (interval == 0) = true
        all_goals refine ⟨?_, ?_, ?_, ?_, ?_⟩
        all_goals simp [srvStep, hi, cancelTracked, hst, loopStart, spawnRun, hg, hw,
          hpnil]
      · have hfilter : s.pendingTimers.filter (fun p => p.1 != t0) = [] := by
          refine List.filter_eq_nil_iff.mpr (fun a ha => ?_)
          have := h2 a ha
          rw [hst] at this
          simp only [Option.some.injEq] at this
          simp [this]
        by_cases hi : (interval == 0) = true
        all_goals refine ⟨?_, ?_, ?_, ?_, ?_⟩
        all_goals simp [srvStep, hi, cancelTracked, hst, loopStart, spawnRun, hg, hw,
          hfilter]
  | stopReq =>
      rcases hst : s.scheduleTimeout with _ | t0
      · have hpnil : s.pendingTimers = [] := by
          refine List.eq_nil_iff_forall_not_mem.mpr (fun x hx => ?_)
          have := h2 x hx
          rw [hst] at this
          cases this
        refine ⟨?_, ?_, ?_, ?_, ?_⟩
        all_goals simp [srvStep, cancelTracked, hst, hpnil]
        · omega
        · exact fun a b hab => h3 (a, b) hab
        · exact h4
      · have hfilter : s.pendingTimers.filter (fun p => p.1 != t0) = [] := by
          refine List.filter_eq_nil_iff.mpr (fun a ha => ?_)
          have := h2 a ha
          rw [hst] at this
          simp only [Option.some.injEq] at this
          simp [this]
        refine ⟨?_, ?_, ?_, ?_, ?_⟩
        all_goals simp [srvStep, cancelTracked, hst, hfilter]
        · omega
        · exact fun a b hab => h3 (a, b) hab
        · exact h4
  | childClose pid =>
      by_cases hmem : pid ∈ s.running
      · have hrl : s.running.length ≤ 1 := by omega
        have hrun : s.running = [pid] := eq_singleton_of_len_le_one hrl hmem
        have hpnil : s.pendingTimers = [] := by
          have hlr : s.running.length = 1 := by rw [hrun]; rfl
          have : s.pendingTimers.length = 0 := by omega
          exact List.length_eq_zero.mp this
        rcases hwshape : s.waiters with _ | ⟨w, ws⟩
        · have hf : s.waiters.find? (fun x => x.1 == pid) = none := by
            rw [hwshape]; rfl
          refine ⟨?_, ?_, ?_, ?_, ?_⟩
          all_goals simp [srvStep, hmem, hf, hrun, hpnil, hwshape]
        · have hws : ws = [] := by
            have hlen : (w :: ws).length ≤ ([pid] : List Nat).length := by
              rw [← hwshape, ← hrun]
              exact h4
            simp only [List.length_cons, List.length_nil] at hlen
            have : ws.length = 0 := by omega
            exact List.length_eq_zero.mp this
          have hw1 : w.1 = pid := by
            have := h3 w (by rw [hwshape]; exact List.mem_cons_self w ws)
            rw [hrun] at this
            simpa using this
          have hf : s.waiters.find? (fun x => x.1 == pid) = some w := by
            rw [hwshape, hws]
            simp [List.find?, hw1]
          by_cases hsch : s.isScheduled = true
          all_goals refine ⟨?_, ?_, ?_, ?_, ?_⟩
          all_goals simp [srvStep, hmem, hf, hrun, hpnil, hwshape, hws, hsch, hw1]
      · simp only [srvStep, hmem, if_false]
        exact ⟨h1, h2, h3, h4, h5⟩
  | timerFire t =>
      simp only [dispatchGuard, List.isEmpty_iff] at hg
      rcases hf : s.pendingTimers.find? (fun p => p.1 == t) with _ | ti
      · simp only [srvStep, hf]
        exact ⟨h1, h2, h3, h4, h5⟩
      · have hmem := List.mem_of_find?_eq_some hf
        have hpl : s.pendingTimers.length ≤ 1 := by omega
        have hpshape : s.pendingTimers = [ti] := eq_singleton_of_len_le_one hpl hmem
        have hti := List.find?_some hf
        simp only [beq_iff_eq] at hti
        have hfilter : s.pendingTimers.filter (fun p => p.1 != t) = [] := by
          rw [hpshape]
          simp [hti]
        have hw : s.waiters = [] := by
          rw [hg] at h4
          exact List.length_eq_zero.mp (Nat.le_zero.mp h4)
        by_cases hsch : s.isScheduled = true
        all_goals refine ⟨?_, ?_, ?_, ?_, ?_⟩
        all_goals simp [srvStep, hf, loopStart, spawnRun, hsch, hfilter, hg, hw]

/-- The loop invariant holds along every serialized trace without manual
runs. -/
theorem serialized_loopInv : ∀ (evs : List SrvEv) (s : ServerState), LoopInv s →
    serializedFrom false s evs = true → LoopInv (evs.foldl srvStep s)
  | [], s, h, _ => h
  | e :: rest, s, h, hser => by
      rw [serializedFrom, Bool.and_eq_true] at hser
      exact serialized_loopInv rest (srvStep s e) (loopInv_step s e hser.1 h) hser.2

/-- The boot state satisfies the loop invariant. -/
theorem loopInv_init : LoopInv srvInit := by
  refine ⟨?_, ?_, ?_, ?_, ?_⟩ <;> simp [srvInit]

/-- C2 counterexample: a schedule request while a scheduled run is still
unresolved immediately dispatches a second run.  After scheduling twice in a
row, children 0 and 1 are both unresolved and both have a waiting loop
continuation, so the loop dispatched a new run while the previous one was
unresolved. -/
theorem claim_C2_counterexample :
    (srvRun [SrvEv.scheduleReq 5, SrvEv.scheduleReq 5]).running = [1, 0] ∧
    (srvRun [SrvEv.scheduleReq 5, SrvEv.scheduleReq 5]).waiters = [(1, 5), (0, 5)] ∧
    (srvRun [SrvEv.scheduleReq 5, SrvEv.scheduleReq 5]).running.length = 2 := by
  refine ⟨by decide, by decide, by decide⟩

/-- C2 amended: within the serialized discipline, where schedule requests and
timer callbacks are only processed while no run is unresolved and no manual
runs interleave, the loop never has two unresolved runs: the delay timer is
armed only at a run settlement, so consecutive runs never overlap.  A
restart of the schedule while a run is executing, however, dispatches a new
run while the previous one is unresolved (see the counterexample). -/
theorem claim_C2_theorem (evs : List SrvEv)
    (hser : serializedFrom false srvInit evs = true) :
    (srvRun evs).running.length ≤ 1 ∧ (srvRun evs).waiters.length ≤ 1 := by
  have h := serialized_loopInv evs srvInit loopInv_init hser
  rw [show List.foldl srvStep srvInit evs = srvRun evs from rfl] at h
  obtain ⟨h1, h2, h3, h4, h5⟩ := h
  exact ⟨by omega, le_trans h4 (by omega)⟩

/-- Witness for the C2 amended theorem: a serialized trace with one full
loop cycle, a timer fire, a second cycle and a schedule stop. -/
theorem claim_C2_witness :
    (srvRun [SrvEv.scheduleReq 5, SrvEv.childClose 0, SrvEv.timerFire 0,
      SrvEv.childClose 1, SrvEv.scheduleReq 0]).running.length ≤ 1 ∧
    (srvRun [SrvEv.scheduleReq 5, SrvEv.childClose 0, SrvEv.timerFire 0,
      SrvEv.childClose 1, SrvEv.scheduleReq 0]).waiters.length ≤ 1 :=
  claim_C2_theorem [SrvEv.scheduleReq 5, SrvEv.childClose 0, SrvEv.timerFire 0,
    SrvEv.childClose 1, SrvEv.scheduleReq 0] (by decide)

/-- C8 counterexample: after schedule, run settlement (arming the timer) and
stop, the scheduleTimeout variable still holds timer 0 while the schedule is
inactive, because the script never resets the variable; after stop and
restart while a run is executing, a timer is pending while child 1 is still
running, and once both children settle two delay timers are pending at
once. -/
theorem claim_C8_counterexample :
    ((srvRun [SrvEv.scheduleReq 5, SrvEv.childClose 0, SrvEv.stopReq]).scheduleTimeout =
        some 0 ∧
      (srvRun [SrvEv.scheduleReq 5, SrvEv.childClose 0, SrvEv.stopReq]).isScheduled =
        false) ∧
    ((srvRun [SrvEv.scheduleReq 5, SrvEv.stopReq, SrvEv.scheduleReq 5,
        SrvEv.childClose 0]).pendingTimers = [(0, 5)] ∧
      (srvRun [SrvEv.scheduleReq 5, SrvEv.stopReq, SrvEv.scheduleReq 5,
        SrvEv.childClose 0]).running = [1]) ∧
    (srvRun [SrvEv.scheduleReq 5, SrvEv.stopReq, SrvEv.scheduleReq 5,
      SrvEv.childClose 0, SrvEv.childClose 1]).pendingTimers.length = 2 := by
  refine ⟨⟨by decide, by decide⟩, ⟨by decide, by decide⟩, by decide⟩

/-- C8 amended: under the serialized discipline without manual runs, a
pending delay timer exists only while the schedule is active and no run is
executing, and at most one delay timer is pending; outside that discipline
the stop-then-start race leaves two pending timers, and the scheduleTimeout
variable itself can keep a stale identifier after a stop (see the
counterexample). -/
theorem claim_C8_theorem (evs : List SrvEv)
    (hser : serializedFrom false srvInit evs = true) :
    (∀ ti ∈ (srvRun evs).pendingTimers,
      (srvRun evs).isScheduled = true ∧ (srvRun evs).running = []) ∧
    (srvRun evs).pendingTimers.length ≤ 1 := by
  have h := serialized_loopInv evs srvInit loopInv_init hser
  rw [show List.foldl srvStep srvInit evs = srvRun evs from rfl] at h
  obtain ⟨h1, h2, h3, h4, h5⟩ := h
  refine ⟨fun ti hti => ⟨h5 ti hti, ?_⟩, by omega⟩
  have hlen : 1 ≤ (srvRun evs).pendingTimers.length := by
    rcases hp : (srvRun evs).pendingTimers with _ | ⟨a, l⟩
    · rw [hp] at hti
      cases hti
    · simp [hp]
  exact List.length_eq_zero.mp (by omega)

/-- Witness for the C8 amended theorem: a serialized trace that leaves one
timer armed after a settled run. -/
theorem claim_C8_witness :
    (∀ ti ∈ (srvRun [SrvEv.scheduleReq 7, SrvEv.childClose 0]).pendingTimers,
      (srvRun [SrvEv.scheduleReq 7, SrvEv.childClose 0]).isScheduled = true ∧
      (srvRun [SrvEv.scheduleReq 7, SrvEv.childClose 0]).running = []) ∧
    (srvRun [SrvEv.scheduleReq 7, SrvEv.childClose 0]).pendingTimers.length ≤ 1 :=
  claim_C8_theorem [SrvEv.scheduleReq 7, SrvEv.childClose 0] (by decide)
